import Mathlib

/-
Verification of the librarius transactional object store core.

The definitions below are a shallow embedding of the Rust sources:
  src/vos.rs       (UntypedPointer, Version, allocators, VersionedReader,
                    VersionedObjectStore::commit_version)
  src/tx.rs        (TransactionWrite, Transaction::write/abort/commit)
  src/librarius.rs (Librarius::run_once / run)
  src/las.rs       (LogicalAddressSpace::new/fetch/flush/read/alloc)

Machine words (usize) are modelled as Nat; the bit-mask manipulation of
tagged pointers and versions uses the same masks as the source.  Stateful
code is modelled by explicit state passing; atomic CAS is modelled as a
test-and-set on an explicit pointer store (the model is sequential, so a
CAS succeeds exactly when the stored word equals the expected operand).
Fallible Rust functions returning Result are modelled with Except; the
extended error type XErr additionally has a constructor for Rust panics
(assert!/unwrap failures) and one for fuel exhaustion of the fueled
recursions (the Rust recursions are not structurally terminating).
-/

/-- Error enum from src/error.rs.  The variants AllocationTooLarge and
OpenOnUninitialized are constructed by src/vos.rs and src/las.rs
respectively (error.rs as shipped omits them); they are included here
because the code under verification uses them. -/
inductive Error where
  | SourceError
  | MemoryAlloc
  | InvalidSource
  | InvalidMemory
  | WrongPagesize (is expected : Nat)
  | FileIO
  | PartialIO
  | NotByteAddressable
  | NoAvailableMemory
  | NoPersistentStorage
  | InvalidLogicalAddress
  | InvalidFlush
  | RootExists
  | LogEntryTooLarge
  | ContextTooLarge
  | TxAborted
  | AllocationTooLarge
  | OpenOnUninitialized
  deriving DecidableEq, Repr

/-- Extended result error: a source error, a Rust panic (assert! or
unwrap failure), or exhaustion of the fuel of a fueled recursion. -/
inductive XErr where
  | e (err : Error)
  | panic
  | outOfFuel
  deriving DecidableEq, Repr

/-! ### UntypedPointer (src/vos.rs lines 25-142)

A pointer is a single 64-bit word.  The constants are exactly the masks
of the source; a Rust bitwise not on usize is xor with 2^64 - 1. -/

def POINTER_TYPE_MASK : Nat := 0b11 <<< 54

def POINTER_REFCOUNT_MASK : Nat := 0b11111111 <<< 56

def POINTER_BYTE_ADDRESSABLE : Nat := 0b00 <<< 54

def POINTER_BLOCK : Nat := 0b01 <<< 54

def POINTER_LOG : Nat := 0b10 <<< 54

/-- Rust ! (bitwise not) on a usize value. -/
def usizeNot (x : Nat) : Nat := (2 ^ 64 - 1) ^^^ x

def POINTER_ADDRESS_MASK : Nat := usizeNot (POINTER_TYPE_MASK ||| POINTER_REFCOUNT_MASK)

/-- UntypedPointer::type_bytes. -/
def pointerTypeBytes (w : Nat) : Nat := w &&& POINTER_TYPE_MASK

/-- UntypedPointer::address. -/
def pointerAddress (w : Nat) : Nat := w &&& POINTER_ADDRESS_MASK

/-- UntypedPointer::new_byte. -/
def newByteWord (address : Nat) : Nat := address ||| POINTER_BYTE_ADDRESSABLE

/-- UntypedPointer::new_block. -/
def newBlockWord (address : Nat) : Nat := address ||| POINTER_BLOCK

/-- UntypedPointer::new_log. -/
def newLogWord (address : Nat) : Nat := address ||| POINTER_LOG

/-- UntypedPointer::new_none. -/
def newNoneWord : Nat := 0

/-- UntypedPointer::is_none. -/
def pointerIsNone (w : Nat) : Bool := pointerAddress w == 0

/-- UntypedPointer::is_some. -/
def pointerIsSome (w : Nat) : Bool := !(pointerAddress w == 0)

/-- UntypedPointer::is_byte_addressable. -/
def pointerIsByteAddressable (w : Nat) : Bool :=
  pointerTypeBytes w == POINTER_BYTE_ADDRESSABLE

/-- UntypedPointer::is_block. -/
def pointerIsBlock (w : Nat) : Bool := pointerTypeBytes w == POINTER_BLOCK

theorem address_mask_eq : POINTER_ADDRESS_MASK = 2 ^ 54 - 1 := by decide

theorem pointerAddress_eq_mod (w : Nat) : pointerAddress w = w % 2 ^ 54 := by
  rw [pointerAddress, address_mask_eq, Nat.and_pow_two_sub_one_eq_mod]

theorem newByteWord_eq (a : Nat) : newByteWord a = a := by
  simp [newByteWord, POINTER_BYTE_ADDRESSABLE]

theorem newBlockWord_eq (a : Nat) (h : a < 2 ^ 54) : newBlockWord a = 2 ^ 54 + a := by
  have hb : POINTER_BLOCK = 2 ^ 54 := by decide
  have := Nat.mul_add_lt_is_or (i := 54) h 1
  rw [Nat.mul_one] at this
  rw [newBlockWord, hb, Nat.lor_comm]
  omega

theorem newLogWord_eq (a : Nat) (h : a < 2 ^ 54) : newLogWord a = 2 ^ 55 + a := by
  have hb : POINTER_LOG = 2 ^ 55 := by decide
  have h' : a < 2 ^ 55 := lt_trans h (by norm_num)
  have := Nat.mul_add_lt_is_or (i := 55) h' 1
  rw [Nat.mul_one] at this
  rw [newLogWord, hb, Nat.lor_comm]
  omega

/-- Claim C8 counterexample: the claim says the kind lives in the top 2
bits of the word (Block = 01, so any block pointer word would satisfy
w / 2^62 % 4 = 1).  The pointer constructed by new_block(0) is
block-kinded, yet its top two bits are 00: the kind mask in the source is
0b11 << 54, not the top two bits. -/
theorem ts_C8_cex :
    pointerIsBlock (newBlockWord 0) = true ∧ newBlockWord 0 / 2 ^ 62 % 4 ≠ 1 := by
  decide

/-- Claim C8 (amended): bits 54-55 of the 64-bit word encode the kind
(ByteAddressable=00, Block=01, Log=10), bits 56-63 are the per-pointer
refcount byte, the bits below 54 are the logical address, and a pointer
is none exactly when its address part is 0; for every address a < 2^54,
new_byte(a), new_block(a) and new_log(a) satisfy address() == a with the
corresponding kind. -/
theorem ts_C8 (a : Nat) (h : a < 2 ^ 54) :
    POINTER_REFCOUNT_MASK = 255 * 2 ^ 56 ∧
    POINTER_ADDRESS_MASK = 2 ^ 54 - 1 ∧
    (∀ w, pointerIsNone w = true ↔ pointerAddress w = 0) ∧
    pointerAddress (newByteWord a) = a ∧
    pointerAddress (newBlockWord a) = a ∧
    pointerAddress (newLogWord a) = a ∧
    newByteWord a / 2 ^ 54 % 4 = 0 ∧
    newBlockWord a / 2 ^ 54 % 4 = 1 ∧
    newLogWord a / 2 ^ 54 % 4 = 2 := by
  have hby := newByteWord_eq a
  have hbl := newBlockWord_eq a h
  have hlg := newLogWord_eq a h
  refine ⟨by decide, address_mask_eq, ?_, ?_, ?_, ?_, ?_, ?_, ?_⟩
  · intro w
    simp [pointerIsNone]
  · rw [hby, pointerAddress_eq_mod]
    omega
  · rw [hbl, pointerAddress_eq_mod]
    omega
  · rw [hlg, pointerAddress_eq_mod]
    omega
  · rw [hby]
    omega
  · rw [hbl]
    omega
  · rw [hlg]
    omega

/-- Claim C8 witness: the amended statement instantiated at address 5. -/
theorem ts_C8_witness :
    POINTER_REFCOUNT_MASK = 255 * 2 ^ 56 ∧
    POINTER_ADDRESS_MASK = 2 ^ 54 - 1 ∧
    (∀ w, pointerIsNone w = true ↔ pointerAddress w = 0) ∧
    pointerAddress (newByteWord 5) = 5 ∧
    pointerAddress (newBlockWord 5) = 5 ∧
    pointerAddress (newLogWord 5) = 5 ∧
    newByteWord 5 / 2 ^ 54 % 4 = 0 ∧
    newBlockWord 5 / 2 ^ 54 % 4 = 1 ∧
    newLogWord 5 / 2 ^ 54 % 4 = 2 :=
  ts_C8 5 (by norm_num)

/-! ### Pointer store and CAS (src/vos.rs compare_and_swap, src/tx.rs)

A pointer store maps a pointer identity (the location of an
UntypedPointer cell) to the word it currently holds.  In this sequential
model compare_and_swap succeeds exactly when the stored word equals the
expected operand. -/

/-- UntypedPointer::compare_and_swap on an explicit store: returns the
updated store and whether the swap happened. -/
def casWord (store : Nat → Nat) (p current new : Nat) : (Nat → Nat) × Bool :=
  if store p = current then (Function.update store p new, true) else (store, false)

/-- TransactionWrite from src/tx.rs: destination pointer cell, the
address the destination held before the swing, and the new pointer word
it was swung to. -/
structure TxWrite where
  dst : Nat
  current : Nat
  new : Nat
  deriving DecidableEq, Repr

/-- TransactionWrite::perform: CAS dst from byte(current) to new. -/
def txWritePerform (store : Nat → Nat) (w : TxWrite) : (Nat → Nat) × Bool :=
  casWord store w.dst (newByteWord w.current) w.new

/-- TransactionWrite::rollback: CAS dst from new back to byte(current);
the source asserts the CAS succeeded, so a failed CAS is a panic. -/
def txWriteRollback (store : Nat → Nat) (w : TxWrite) : Except XErr (Nat → Nat) :=
  let r := casWord store w.dst w.new (newByteWord w.current)
  if r.2 then .ok r.1 else .error .panic

/-- Transaction::abort: iterate the write set in source order (the Rust
loop is a plain forward iteration over the writeset vector) and roll
back each entry. -/
def txAbort (store : Nat → Nat) : List TxWrite → Except XErr (Nat → Nat)
  | [] => .ok store
  | w :: rest =>
    match txWriteRollback store w with
    | .ok store2 => txAbort store2 rest
    | .error err => .error err

/-- Modelled from the spec: the abort order the spec describes, namely
iterating the write set in reverse.  Used to compare the code's forward
iteration against the claimed behaviour. -/
def txAbortReverse (store : Nat → Nat) (ws : List TxWrite) : Except XErr (Nat → Nat) :=
  txAbort store ws.reverse

/-- A write set holding the same destination (cell 0) twice, with the
cell holding byte(300).  No transaction can produce it — the snapshot
read inside Transaction::write aborts a second write to a destination
that already points at the transaction's own uncommitted object — so it
serves only to distinguish the iteration order of the abort procedure
from the reverse order the spec describes. -/
def doubleWriteSet : List TxWrite :=
  [⟨0, 100, newByteWord 200⟩, ⟨0, 200, newByteWord 300⟩]

def doubleWriteStore : Nat → Nat := Function.update (fun _ => newByteWord 100) 0 (newByteWord 300)

/-- Claim C2 counterexample: the claim describes abort() as iterating
the write set in reverse.  As a procedure on write sets it does not:
the Rust loop is a forward iteration, and at the write set
doubleWriteSet the two orders disagree — the forward iteration of the
code trips the rollback assert (the first entry expects byte(200) but
the cell holds byte(300)) while the reverse iteration described by the
claim succeeds and restores byte(100).  (This distinguishing write set
is not reachable by a transaction, so the order slip has no
transaction-observable consequence; the amended claim records the
actual forward order and proves the transaction-level guarantees.) -/
theorem ts_C2_cex :
    txAbort doubleWriteStore doubleWriteSet = .error .panic ∧
    (∃ store2, txAbortReverse doubleWriteStore doubleWriteSet = .ok store2 ∧
      store2 0 = newByteWord 100) ∧
    txAbort doubleWriteStore doubleWriteSet ≠ txAbortReverse doubleWriteStore doubleWriteSet := by
  have hfwd : txAbort doubleWriteStore doubleWriteSet = .error .panic := by rfl
  have hrev : txAbortReverse doubleWriteStore doubleWriteSet =
      .ok (Function.update (Function.update doubleWriteStore 0 (newByteWord 200)) 0
        (newByteWord 100)) := by rfl
  refine ⟨hfwd, ⟨_, hrev, by rfl⟩, ?_⟩
  intro h
  rw [hfwd, hrev] at h
  exact Except.noConfusion h

/-- Transaction::write (src/tx.rs lines 100-120) restricted to its
pointer-swing effect.  addrRead is the address loaded from the pointer
cell when the function entered (read_pointer.address()); freshAddr is
the byte address of the newly allocated copy (the snapshot read, the
allocation and the body copy are abstracted away — they do not touch the
pointer store).  The CAS swings the cell from byte(addrRead) to
byte(freshAddr); on CAS failure the function returns TxAborted without
pushing the entry onto the write set. -/
def txWriteStep (store : Nat → Nat) (ws : List TxWrite) (p addrRead freshAddr : Nat) :
    ((Nat → Nat) × List TxWrite) × Except XErr Nat :=
  let w : TxWrite := ⟨p, addrRead, newByteWord freshAddr⟩
  let r := txWritePerform store w
  if r.2 then ((r.1, ws ++ [w]), .ok freshAddr)
  else ((store, ws), .error (.e .TxAborted))

theorem txAbort_ok_outside (store : Nat → Nat) (ws : List TxWrite) (q : Nat)
    (hq : ∀ w ∈ ws, w.dst ≠ q) (store2 : Nat → Nat) (h : txAbort store ws = .ok store2) :
    store2 q = store q := by
  induction ws generalizing store with
  | nil =>
    simp only [txAbort] at h
    cases h
    rfl
  | cons w rest ih =>
    simp only [txAbort, txWriteRollback, casWord] at h
    by_cases hc : store w.dst = w.new
    · simp only [hc, if_pos rfl] at h
      have := ih (Function.update store w.dst (newByteWord w.current))
        (fun w' hw' => hq w' (List.mem_cons_of_mem _ hw')) h
      rw [this, Function.update_apply, if_neg]
      exact fun hqe => hq w (List.mem_cons_self w rest) (by omega)
    · simp only [if_neg hc] at h
      cases h

theorem txAbort_all_swung (store : Nat → Nat) (ws : List TxWrite)
    (hnodup : (ws.map TxWrite.dst).Nodup)
    (hsw : ∀ w ∈ ws, store w.dst = w.new) :
    ∃ store2, txAbort store ws = .ok store2 ∧
      ∀ w ∈ ws, store2 w.dst = newByteWord w.current := by
  induction ws generalizing store with
  | nil => exact ⟨store, rfl, by simp⟩
  | cons w rest ih =>
    have hw : store w.dst = w.new := hsw w (List.mem_cons_self w rest)
    have hstep : txAbort store (w :: rest) =
        txAbort (Function.update store w.dst (newByteWord w.current)) rest := by
      simp [txAbort, txWriteRollback, casWord, hw]
    have hnd : (rest.map TxWrite.dst).Nodup := (List.nodup_cons.mp hnodup).2
    have hnotmem : w.dst ∉ rest.map TxWrite.dst := (List.nodup_cons.mp hnodup).1
    have hsw' : ∀ w' ∈ rest, Function.update store w.dst (newByteWord w.current) w'.dst = w'.new := by
      intro w' hw'
      rw [Function.update_apply, if_neg]
      · exact hsw w' (List.mem_cons_of_mem _ hw')
      · intro he
        exact hnotmem (he ▸ List.mem_map_of_mem TxWrite.dst hw')
    obtain ⟨store2, h2, hres⟩ := ih _ hnd hsw'
    refine ⟨store2, hstep ▸ h2, ?_⟩
    intro w' hw'
    rcases List.mem_cons.mp hw' with he | hm
    · subst he
      have : store2 w'.dst = Function.update store w'.dst (newByteWord w'.current) w'.dst := by
        refine txAbort_ok_outside _ rest w'.dst ?_ store2 h2
        intro w2 hw2 he2
        exact hnotmem (he2 ▸ List.mem_map_of_mem TxWrite.dst hw2)
      rw [this, Function.update_same]
    · exact hres w' hm

/-- Claim C10: when the CAS inside Transaction::write fails, write
returns TxAborted and appends nothing to the write set (first conjunct:
the store and the write set are returned unchanged); consequently abort
only CAS-restores the entries whose swing succeeded: it never touches a
pointer cell outside the write set (second conjunct), and when every
write-set entry is still swung to its new word (and the destinations are
distinct), every rollback CAS succeeds — no assert fires — and each
destination is restored to the byte pointer of its pre-write address
(third conjunct). -/
theorem ts_C10 :
    (∀ (store : Nat → Nat) (ws : List TxWrite) (p a f : Nat),
      store p ≠ newByteWord a →
      txWriteStep store ws p a f = ((store, ws), .error (.e .TxAborted))) ∧
    (∀ (store : Nat → Nat) (ws : List TxWrite) (q : Nat),
      (∀ w ∈ ws, w.dst ≠ q) → ∀ store2, txAbort store ws = .ok store2 → store2 q = store q) ∧
    (∀ (store : Nat → Nat) (ws : List TxWrite),
      (ws.map TxWrite.dst).Nodup → (∀ w ∈ ws, store w.dst = w.new) →
      ∃ store2, txAbort store ws = .ok store2 ∧
        ∀ w ∈ ws, store2 w.dst = newByteWord w.current) := by
  refine ⟨?_, ?_, ?_⟩
  · intro store ws p a f hne
    simp [txWriteStep, txWritePerform, casWord, hne]
  · intro store ws q hq store2 h
    exact txAbort_ok_outside store ws q hq store2 h
  · intro store ws hnd hsw
    exact txAbort_all_swung store ws hnd hsw

/-- Claim C10 witness: the three conjuncts applied at concrete inputs.
Cell 0 holds byte(50), so a write that read address 49 fails its CAS and
leaves the write set empty; aborting a one-entry write set for cell 1
leaves cell 0 untouched; aborting a two-entry swung write set restores
both cells. -/
theorem ts_C10_witness :
    (txWriteStep (fun _ => newByteWord 50) [] 0 49 9 =
      (((fun _ => newByteWord 50), []), .error (.e .TxAborted))) ∧
    (∀ store2, txAbort (Function.update (fun _ => (5 : Nat)) 1 (newByteWord 200))
        [⟨1, 100, newByteWord 200⟩] = .ok store2 → store2 0 = 5) ∧
    (∃ store2, txAbort
        (fun p => if p = 1 then newByteWord 200 else if p = 2 then newByteWord 400 else 0)
        [⟨1, 100, newByteWord 200⟩, ⟨2, 300, newByteWord 400⟩] = .ok store2 ∧
      ∀ w ∈ [(⟨1, 100, newByteWord 200⟩ : TxWrite), ⟨2, 300, newByteWord 400⟩],
        store2 w.dst = newByteWord w.current) := by
  refine ⟨?_, ?_, ?_⟩
  · exact ts_C10.1 (fun _ => newByteWord 50) [] 0 49 9 (by decide)
  · intro store2 h
    exact ts_C10.2.1 (Function.update (fun _ => (5 : Nat)) 1 (newByteWord 200))
      [⟨1, 100, newByteWord 200⟩] 0 (by decide) store2 h
  · exact ts_C10.2.2
      (fun p => if p = 1 then newByteWord 200 else if p = 2 then newByteWord 400 else 0)
      [⟨1, 100, newByteWord 200⟩, ⟨2, 300, newByteWord 400⟩] (by decide) (by decide)

/-! ### Versions and the versioned reader (src/vos.rs lines 144-234, 420-528)

A Version is a 64-bit word: top bit 63 is the kind (Direct=0,
Indirect=1); for a direct version the low 63 bits are the commit
counter, for an indirect version they are an UntypedPointer word whose
address points at a Version record in byte-addressable storage.  The
heap abstracts las.read: vcells gives the Version word stored at an
address, objects gives the ObjectHeader stored in front of the object
body at an address (read resolves ptr.address() - sizeof(ObjectHeader)
and splits header from body), and fetchDst gives the byte address at
which las.fetch would deposit the copy of a non-byte-addressable object
(the source then CASes the pointer to that byte address and retries; in
this sequential model the CAS always succeeds). -/

def VERSION_TYPE_MASK : Nat := 0b1 <<< 63

def VERSION_DATA_MASK : Nat := usizeNot VERSION_TYPE_MASK

def VERSION_TYPE_DIRECT : Nat := 0b0 <<< 63

def VERSION_TYPE_INDIRECT : Nat := 0b1 <<< 63

/-- Version::type_bytes. -/
def versionTypeBytes (w : Nat) : Nat := w &&& VERSION_TYPE_MASK

/-- Version::data_bytes. -/
def versionDataBytes (w : Nat) : Nat := w &&& VERSION_DATA_MASK

/-- ObjectHeader (src/vos.rs lines 296-301): object size split into the
pointer prefix and the opaque data suffix, the version word, the unused
parent pointer, and the link to the previous version of the object. -/
structure ObjHeader where
  sizePointers : Nat
  sizeData : Nat
  version : Nat
  parent : Nat
  other : Nat
  deriving DecidableEq, Repr

/-- The byte-addressable heap as seen by the versioned reader. -/
structure VosHeap where
  vcells : Nat → Option Nat
  objects : Nat → Option ObjHeader
  fetchDst : Nat → Nat

/-- Version::read (src/vos.rs lines 219-233), fueled: a direct version
is its data bits; an indirect version dereferences the pointer stored in
the data bits (into_stored_slice derives the slice kind from the pointer
kind, and unwrap_byte panics if it is not byte-addressable) and recurses
on the Version word read there. -/
def versionRead (h : VosHeap) : Nat → Nat → Except XErr Nat
  | 0, _ => .error .outOfFuel
  | fuel + 1, w =>
    let data := versionDataBytes w
    if versionTypeBytes w = VERSION_TYPE_DIRECT then .ok data
    else
      if pointerIsByteAddressable data then
        match h.vcells (pointerAddress data) with
        | some w2 => versionRead h fuel w2
        | none => .error (.e Error.InvalidLogicalAddress)
      else .error .panic

/-- VersionedReader::read (src/vos.rs lines 489-527), fueled.  snapshot
is the reader's version field.  A none pointer fails with
InvalidLogicalAddress; a non-byte-addressable pointer is fetched into a
byte mirror, the pointer is CAS-swung to the mirror address (in this
sequential model the CAS succeeds) and the read retries; otherwise the
header at the pointer address is read and its version resolved: a
version that is 0 (uncommitted) or above the snapshot returns TxAborted
when abort_on_conflict is set and otherwise recurses on header.other;
a visible version returns the header (the body bytes the source returns
alongside carry no information the claims need). -/
def vrRead (h : VosHeap) (snapshot : Nat) : Nat → Nat → Bool → Except XErr ObjHeader
  | 0, _, _ => .error .outOfFuel
  | fuel + 1, w, abortOnConflict =>
    if pointerIsNone w then .error (.e Error.InvalidLogicalAddress)
    else if !pointerIsByteAddressable w then
      vrRead h snapshot fuel (newByteWord (h.fetchDst (pointerAddress w))) abortOnConflict
    else
      match h.objects (pointerAddress w) with
      | none => .error (.e Error.InvalidLogicalAddress)
      | some hdr =>
        match versionRead h fuel hdr.version with
        | .error err => .error err
        | .ok ver =>
          if ver = 0 ∨ snapshot < ver then
            if abortOnConflict then .error (.e Error.TxAborted)
            else vrRead h snapshot fuel hdr.other abortOnConflict
          else .ok hdr

/-- Claim C1: whenever VersionedReader::read returns an object header
(in either conflict mode), that header's version resolves to a commit
number that is nonzero and at most the snapshot version (first
conjunct); and with abort_on_conflict set, a byte-addressable pointer
whose header version resolves to 0 or to a value above the snapshot
yields TxAborted instead of recursing on header.other (second
conjunct). -/
theorem ts_C1 :
    (∀ (h : VosHeap) (v fuel w : Nat) (ab : Bool) (hdr : ObjHeader),
      vrRead h v fuel w ab = .ok hdr →
      ∃ n f, versionRead h f hdr.version = .ok n ∧ 0 < n ∧ n ≤ v) ∧
    (∀ (h : VosHeap) (v fuel w : Nat) (hdr : ObjHeader) (ver : Nat),
      pointerIsNone w = false → pointerIsByteAddressable w = true →
      h.objects (pointerAddress w) = some hdr →
      versionRead h fuel hdr.version = .ok ver →
      (ver = 0 ∨ v < ver) →
      vrRead h v (fuel + 1) w true = .error (.e Error.TxAborted)) := by
  constructor
  · intro h v fuel
    induction fuel with
    | zero =>
      intro w ab hdr hread
      simp [vrRead] at hread
    | succ fuel ih =>
      intro w ab hdr hread
      simp only [vrRead] at hread
      by_cases hnone : pointerIsNone w
      · simp [hnone] at hread
      · simp only [hnone, Bool.false_eq_true, if_false] at hread
        by_cases hbyte : pointerIsByteAddressable w
        · simp only [hbyte, Bool.not_true, Bool.false_eq_true, if_false] at hread
          cases hobj : h.objects (pointerAddress w) with
          | none => simp [hobj] at hread
          | some hdr0 =>
            simp only [hobj] at hread
            cases hver : versionRead h fuel hdr0.version with
            | error err => simp [hver] at hread
            | ok ver =>
              simp only [hver] at hread
              by_cases hfut : ver = 0 ∨ v < ver
              · simp only [if_pos hfut] at hread
                cases ab with
                | true => simp at hread
                | false => exact ih _ _ _ hread
              · simp only [if_neg hfut] at hread
                cases hread
                push_neg at hfut
                exact ⟨ver, fuel, hver, Nat.pos_of_ne_zero hfut.1, hfut.2⟩
        · simp only [hbyte, Bool.not_false, if_true] at hread
          exact ih _ _ _ hread
  · intro h v fuel w hdr ver hnone hbyte hobj hver hfut
    simp [vrRead, hnone, hbyte, hobj, hver, hfut]

/-- A concrete heap for exercising the reader: the object at address 10
carries direct version 5 with an other-link to address 20, whose object
carries direct version 2. -/
def c1hdrFuture : ObjHeader := ⟨0, 0, 5, 0, newByteWord 20⟩

def c1hdrOld : ObjHeader := ⟨0, 0, 2, 0, 0⟩

def c1heap : VosHeap where
  vcells := fun _ => none
  objects := fun a => if a = 10 then some c1hdrFuture else if a = 20 then some c1hdrOld else none
  fetchDst := fun _ => 0

/-- Claim C1 witness: at snapshot 3, a non-aborting read of the pointer
to address 10 walks past the future version 5 and returns the header
with version 2 (which resolves to a value in (0, 3]), while an aborting
read of the same pointer returns TxAborted. -/
theorem ts_C1_witness :
    (∃ n f, versionRead c1heap f c1hdrOld.version = .ok n ∧ 0 < n ∧ n ≤ 3) ∧
    vrRead c1heap 3 2 (newByteWord 10) true = .error (.e Error.TxAborted) := by
  constructor
  · exact ts_C1.1 c1heap 3 3 (newByteWord 10) false c1hdrOld (by rfl)
  · exact ts_C1.2 c1heap 3 1 (newByteWord 10) c1hdrFuture 5 (by decide) (by decide)
      (by rfl) (by rfl) (by decide)


/-! ### Transaction::write with its read guard, and abort rollback
(src/tx.rs lines 100-144)

Transaction::write snapshot-reads the destination with
abort_on_conflict = true before swinging the pointer.  A destination
this transaction has already written points at the transaction's own
new object, whose header carries the transaction's indirect version —
and that version resolves to 0 (uncommitted) until the commit store —
so the read returns TxAborted and no second write-set entry for the
same destination is ever recorded: every reachable write set has
pairwise distinct destinations, each entry produced by a successful CAS
from byte(current) to new. -/

/-- Transaction::write (src/tx.rs lines 100-120) including the snapshot
read: clone the pointer and take its address, mint the write version
(abstracted), read the current object with abort_on_conflict set — an
error returns before anything is recorded — then allocate the copy
(heap effects abstracted; freshAddr is the new body address) and CAS
and push via the pointer-swing step. -/
def txWriteGuarded (h : VosHeap) (snapshot fuel : Nat) (store : Nat → Nat)
    (ws : List TxWrite) (p freshAddr : Nat) :
    ((Nat → Nat) × List TxWrite) × Except XErr Nat :=
  let w0 := store p
  let a := pointerAddress w0
  match vrRead h snapshot fuel w0 true with
  | .error err => ((store, ws), .error err)
  | .ok _ => txWriteStep store ws p a freshAddr

/-- Performing the write-set CAS swings in push order from a
pre-transaction store; each entry's CAS must succeed, as it did when
the entry was pushed. -/
def performAll (store : Nat → Nat) : List TxWrite → Option (Nat → Nat)
  | [] => some store
  | w :: rest =>
    let r := txWritePerform store w
    if r.2 then performAll r.1 rest else none

theorem performAll_outside (ws : List TxWrite) (store store2 : Nat → Nat) (q : Nat)
    (hq : ∀ w ∈ ws, w.dst ≠ q) (h : performAll store ws = some store2) :
    store2 q = store q := by
  induction ws generalizing store with
  | nil =>
    simp only [performAll, Option.some.injEq] at h
    rw [← h]
  | cons w rest ih =>
    simp only [performAll, txWritePerform, casWord] at h
    by_cases hc : store w.dst = newByteWord w.current
    · simp only [hc, if_pos rfl] at h
      have := ih (Function.update store w.dst w.new)
        (fun w2 hw2 => hq w2 (List.mem_cons_of_mem _ hw2)) h
      rw [this, Function.update_apply, if_neg]
      exact fun he => hq w (List.mem_cons_self w rest) (by omega)
    · simp only [if_neg hc] at h
      cases h

theorem performAll_update_outside (ws : List TxWrite) (store store2 : Nat → Nat) (q v : Nat)
    (hq : ∀ w ∈ ws, w.dst ≠ q) (h : performAll store ws = some store2) :
    performAll (Function.update store q v) ws = some (Function.update store2 q v) := by
  induction ws generalizing store with
  | nil =>
    simp only [performAll, Option.some.injEq] at h
    rw [h]
    rfl
  | cons w rest ih =>
    have hne : w.dst ≠ q := hq w (List.mem_cons_self w rest)
    have hupd : Function.update store q v w.dst = store w.dst :=
      Function.update_noteq hne v store
    simp only [performAll, txWritePerform, casWord] at h
    simp only [performAll, txWritePerform, casWord, hupd]
    by_cases hc : store w.dst = newByteWord w.current
    · simp only [hc, if_pos rfl] at h
      simp only [hc, if_pos rfl]
      rw [Function.update_comm (fun he => hne he.symm)]
      exact ih (Function.update store w.dst w.new)
        (fun w2 hw2 => hq w2 (List.mem_cons_of_mem _ hw2)) h
    · simp only [if_neg hc] at h
      cases h

theorem txAbort_append (l1 l2 : List TxWrite) (store : Nat → Nat) :
    txAbort store (l1 ++ l2) =
      match txAbort store l1 with
      | .ok s => txAbort s l2
      | .error err => .error err := by
  induction l1 generalizing store with
  | nil => rfl
  | cons w rest ih =>
    cases hr : txWriteRollback store w with
    | ok s2 =>
      simp only [List.cons_append, txAbort, hr]
      exact ih s2
    | error err =>
      simp only [List.cons_append, txAbort, hr]

theorem txAbort_restores_forward (ws : List TxWrite) (store0 storeN : Nat → Nat)
    (hnd : (ws.map TxWrite.dst).Nodup) (h : performAll store0 ws = some storeN) :
    ∃ s2, txAbort storeN ws = .ok s2 ∧ ∀ q, s2 q = store0 q := by
  induction ws generalizing store0 storeN with
  | nil =>
    simp only [performAll, Option.some.injEq] at h
    exact ⟨storeN, rfl, fun q => by rw [h]⟩
  | cons w rest ih =>
    have hnotmem : w.dst ∉ rest.map TxWrite.dst := (List.nodup_cons.mp hnd).1
    have hndr : (rest.map TxWrite.dst).Nodup := (List.nodup_cons.mp hnd).2
    simp only [performAll, txWritePerform, casWord] at h
    by_cases hc : store0 w.dst = newByteWord w.current
    · simp only [hc, if_pos rfl] at h
      have hdst : storeN w.dst = w.new := by
        have := performAll_outside rest (Function.update store0 w.dst w.new) storeN w.dst
          (fun w2 hw2 he => hnotmem (he ▸ List.mem_map_of_mem TxWrite.dst hw2)) h
        rw [this, Function.update_same]
      have hupd := performAll_update_outside rest (Function.update store0 w.dst w.new) storeN
        w.dst (newByteWord w.current)
        (fun w2 hw2 he => hnotmem (he ▸ List.mem_map_of_mem TxWrite.dst hw2)) h
      have hbase : Function.update (Function.update store0 w.dst w.new) w.dst
          (newByteWord w.current) = store0 := by
        rw [Function.update_idem, ← hc, Function.update_eq_self]
      rw [hbase] at hupd
      obtain ⟨s2, habort2, hpt⟩ := ih store0 (Function.update storeN w.dst
        (newByteWord w.current)) hndr hupd
      refine ⟨s2, ?_, hpt⟩
      simp only [txAbort, txWriteRollback, casWord, hdst]
      simp only [if_pos rfl, if_true]
      exact habort2
    · simp only [if_neg hc] at h
      cases h

theorem txAbort_restores_reverse (ws : List TxWrite) (store0 storeN : Nat → Nat)
    (h : performAll store0 ws = some storeN) :
    ∃ s2, txAbort storeN ws.reverse = .ok s2 ∧ ∀ q, s2 q = store0 q := by
  induction ws generalizing store0 with
  | nil =>
    simp only [performAll, Option.some.injEq] at h
    exact ⟨storeN, rfl, fun q => by rw [h]⟩
  | cons w rest ih =>
    simp only [performAll, txWritePerform, casWord] at h
    by_cases hc : store0 w.dst = newByteWord w.current
    · simp only [hc, if_pos rfl] at h
      obtain ⟨s1, hab1, hpt1⟩ := ih (Function.update store0 w.dst w.new) h
      have hs1 : s1 w.dst = w.new := by rw [hpt1, Function.update_same]
      refine ⟨Function.update s1 w.dst (newByteWord w.current), ?_, ?_⟩
      · rw [List.reverse_cons, txAbort_append, hab1]
        simp [txAbort, txWriteRollback, casWord, hs1]
      · intro q
        by_cases hq : q = w.dst
        · subst hq
          rw [Function.update_same, hc]
        · rw [Function.update_noteq hq, hpt1, Function.update_noteq hq]
    · simp only [if_neg hc] at h
      cases h

/-- Claim C2 (amended): abort() iterates the write set in forward (push)
order — not reverse — CAS-restoring each destination from its new word
back to the byte pointer of its current address.  First conjunct: the
snapshot read inside Transaction::write returns TxAborted when the
destination already points at an object whose version resolves to 0 —
as every object written by the transaction itself does until commit —
so no second entry for an already-written destination is recorded and
every reachable write set has pairwise distinct destinations.  Second
conjunct: for every write set with distinct destinations whose swings
were performed from a pre-transaction store, the forward abort of the
code succeeds on every entry (the rollback assertion holds) and returns
a store pointwise identical to the pre-transaction one — the reachable
root pointer graph is pointer-identical to its pre-transaction state.
Third conjunct: the reverse iteration the claim describes restores the
same pre-transaction store, so on reachable write sets the two orders
coincide. -/
theorem ts_C2 :
    (∀ (h : VosHeap) (snapshot fuel : Nat) (store : Nat → Nat) (ws : List TxWrite)
      (p freshAddr : Nat) (hdr : ObjHeader),
      pointerIsNone (store p) = false → pointerIsByteAddressable (store p) = true →
      h.objects (pointerAddress (store p)) = some hdr →
      versionRead h fuel hdr.version = .ok 0 →
      txWriteGuarded h snapshot (fuel + 1) store ws p freshAddr =
        ((store, ws), .error (.e Error.TxAborted))) ∧
    (∀ (ws : List TxWrite) (store0 storeN : Nat → Nat),
      (ws.map TxWrite.dst).Nodup → performAll store0 ws = some storeN →
      ∃ s2, txAbort storeN ws = .ok s2 ∧ ∀ q, s2 q = store0 q) ∧
    (∀ (ws : List TxWrite) (store0 storeN : Nat → Nat),
      performAll store0 ws = some storeN →
      ∃ s2, txAbortReverse storeN ws = .ok s2 ∧ ∀ q, s2 q = store0 q) := by
  refine ⟨?_, txAbort_restores_forward, txAbort_restores_reverse⟩
  intro h snapshot fuel store ws p freshAddr hdr hnone hbyte hobj hver
  have hread : vrRead h snapshot (fuel + 1) (store p) true = .error (.e Error.TxAborted) := by
    simp [vrRead, hnone, hbyte, hobj, hver]
  simp [txWriteGuarded, hread]

/-- The heap right after a transaction's own first write to a pointer:
the object at address 10 carries the transaction's indirect version,
whose cell at address 30 still holds the uncommitted value 0. -/
def c2hdrOwn : ObjHeader := ⟨0, 0, VERSION_TYPE_INDIRECT ||| 30, 0, 0⟩

def c2heap : VosHeap where
  vcells := fun a => if a = 30 then some 0 else none
  objects := fun a => if a = 10 then some c2hdrOwn else none
  fetchDst := fun _ => 0

/-- A two-entry write set with distinct destinations, as transactions
produce, with its pre-transaction store and the store after both
swings. -/
def c2ws : List TxWrite := [⟨1, 100, newByteWord 200⟩, ⟨2, 300, newByteWord 400⟩]

def c2store0 : Nat → Nat :=
  fun p => if p = 1 then newByteWord 100 else if p = 2 then newByteWord 300 else 5

def c2storeN : Nat → Nat :=
  Function.update (Function.update c2store0 1 (newByteWord 200)) 2 (newByteWord 400)

/-- Claim C2 witness: a second write to a pointer already swung to the
transaction's own uncommitted object (version cell holds 0) returns
TxAborted with store and write set unchanged; aborting the two-entry
write set c2ws restores the pre-transaction store in the code's forward
order and in the claimed reverse order alike. -/
theorem ts_C2_witness :
    (txWriteGuarded c2heap 7 3 (fun _ => newByteWord 10) [] 0 99 =
      (((fun _ => newByteWord 10), []), .error (.e Error.TxAborted))) ∧
    (∃ s2, txAbort c2storeN c2ws = .ok s2 ∧ ∀ q, s2 q = c2store0 q) ∧
    (∃ s2, txAbortReverse c2storeN c2ws = .ok s2 ∧ ∀ q, s2 q = c2store0 q) := by
  refine ⟨?_, ?_, ?_⟩
  · exact ts_C2.1 c2heap 7 2 (fun _ => newByteWord 10) [] 0 99 c2hdrOwn (by decide)
      (by decide) (by rfl) (by rfl)
  · exact ts_C2.2.1 c2ws c2store0 c2storeN (by decide) (by rfl)
  · exact ts_C2.2.2 c2ws c2store0 c2storeN (by rfl)
/-! ### Commit (src/vos.rs lines 569-584, src/tx.rs lines 146-170)

VersionedObjectStore::commit_version takes the global version counter
write lock, increments the counter, runs the validation closure, and on
success publishes by Version::commit.  The validation closure and the
publish step are abstracted by their results (they are opaque closures
to commit_version as well); the counter mutation happens before
validation, so a failing validation still leaves the counter
incremented. -/

/-- VersionedObjectStore::commit_version: returns the new counter value
and the overall result. -/
def commit_version (counter : Nat) (validate : Except Error Unit)
    (publish : Nat → Except Error Unit) : Nat × Except Error Unit :=
  let newVersion := counter + 1
  match validate with
  | .error err => (newVersion, .error err)
  | .ok _ => (newVersion, publish newVersion)

/-- Transaction::commit: if no indirect version was minted the
transaction was read-only and commits trivially; otherwise it runs
commit_version and, if that returned any error, calls abort() and
returns TxAborted.  The Bool in the result records whether abort() ran. -/
def txCommit (hasVersion : Bool) (counter : Nat) (validate : Except Error Unit)
    (publish : Nat → Except Error Unit) : Nat × Except Error Unit × Bool :=
  if hasVersion then
    match commit_version counter validate publish with
    | (c, .error _) => (c, .error Error.TxAborted, true)
    | (c, .ok _) => (c, .ok (), false)
  else (counter, .ok (), false)

/-- Claim C9: commit_version increments the global version counter by
exactly one (first conjunct, for every validation and publish outcome —
in particular the increment persists when validation fails), and the
counter never decreases across a call (second conjunct). -/
theorem ts_C9 :
    ∀ (counter : Nat) (validate : Except Error Unit) (publish : Nat → Except Error Unit),
      (commit_version counter validate publish).1 = counter + 1 ∧
      counter ≤ (commit_version counter validate publish).1 := by
  intro counter validate publish
  cases validate with
  | error err => exact ⟨rfl, Nat.le_succ counter⟩
  | ok u => exact ⟨rfl, Nat.le_succ counter⟩

/-- Claim C3 counterexample: a committing transaction whose validation
fails with InvalidLogicalAddress (an address error from reading a
read-set entry) does not surface that error: commit returns TxAborted,
which is a different error value. -/
theorem ts_C3_cex :
    (txCommit true 5 (.error Error.InvalidLogicalAddress) (fun _ => .ok ())).2.1 =
      .error Error.TxAborted ∧
    Error.TxAborted ≠ Error.InvalidLogicalAddress := by
  exact ⟨rfl, by decide⟩

/-- Claim C3 (amended): for every transaction whose commit-time
validation encounters an error — including errors other than TxAborted,
such as an I/O or address error from reading a read-set entry's version
— commit aborts the transaction and returns TxAborted to the caller,
masking the original error rather than surfacing it verbatim. -/
theorem ts_C3 :
    ∀ (counter : Nat) (err : Error) (publish : Nat → Except Error Unit),
      (txCommit true counter (.error err) publish).2.1 = .error Error.TxAborted ∧
      (txCommit true counter (.error err) publish).2.2 = true := by
  intro counter err publish
  exact ⟨rfl, rfl⟩

/-! ### run_once and run (src/librarius.rs lines 142-168) -/

/-- Whether run_once finished its transaction by committing or by
aborting. -/
inductive TxFinish where
  | committed
  | aborted
  deriving DecidableEq, Repr

/-- Librarius::run_once: constructs a transaction, invokes the closure;
on Ok it calls tx.commit() and propagates a commit error, on Err it
calls tx.abort() and returns the closure's error verbatim.  The closure
result and the commit result are abstracted by their values. -/
def runOnce {R : Type} (fres : Except Error R) (commitRes : Except Error Unit) :
    Except Error R × TxFinish :=
  match fres with
  | .ok r =>
    (match commitRes with
     | .ok _ => .ok r
     | .error err => .error err, .committed)
  | .error err => (.error err, .aborted)

/-- The test run's match performs: did run_once report an optimistic
conflict (Err(TxAborted))? -/
def isTxAborted {R : Type} : Except Error R → Bool
  | .error Error.TxAborted => true
  | _ => false

theorem isTxAborted_true_iff {R : Type} (r : Except Error R) :
    isTxAborted r = true ↔ r = .error Error.TxAborted := by
  cases r with
  | ok v => simp [isTxAborted]
  | error err => cases err <;> simp [isTxAborted]

/-- Librarius::run: loops run_once, retrying while the result is the
TxAborted error and returning any other result; attempts gives the
result of the i-th run_once call, and the loop is fueled (run itself can
loop forever on endless conflicts). -/
def runLoop {R : Type} (attempts : Nat → Except Error R) :
    Nat → Nat → Option (Except Error R)
  | 0, _ => none
  | fuel + 1, i =>
    if isTxAborted (attempts i) then runLoop attempts fuel (i + 1)
    else some (attempts i)

theorem runLoop_characterization {R : Type} (attempts : Nat → Except Error R)
    (fuel i : Nat) (r : Except Error R) (h : runLoop attempts fuel i = some r) :
    ∃ k, i ≤ k ∧ attempts k = r ∧ r ≠ .error Error.TxAborted ∧
      ∀ j, i ≤ j → j < k → attempts j = .error Error.TxAborted := by
  induction fuel generalizing i with
  | zero => simp [runLoop] at h
  | succ fuel ih =>
    simp only [runLoop] at h
    by_cases ha : isTxAborted (attempts i) = true
    · rw [if_pos ha] at h
      obtain ⟨k, hik, hk, hnr, hprev⟩ := ih (i + 1) h
      have ha' : attempts i = .error Error.TxAborted := (isTxAborted_true_iff _).mp ha
      refine ⟨k, by omega, hk, hnr, ?_⟩
      intro j hij hjk
      rcases Nat.eq_or_lt_of_le hij with he | hlt
      · exact he ▸ ha'
      · exact hprev j hlt hjk
    · rw [if_neg ha] at h
      cases h
      have hne : attempts i ≠ .error Error.TxAborted :=
        fun he => ha ((isTxAborted_true_iff (attempts i)).mpr he)
      exact ⟨i, le_refl i, rfl, hne,
        fun j hij hji => absurd (lt_of_le_of_lt hij hji) (lt_irrefl i)⟩

/-- Claim C4: run_once commits when the closure returns Ok (returning
the closure value on commit success and the commit error otherwise) and
aborts when the closure returns Err, handing back the closure's error
verbatim (first three conjuncts); run repeatedly invokes run_once and,
whenever it returns a result, that result is the first run_once outcome
that is not TxAborted — every earlier attempt failed with TxAborted and
any non-TxAborted error propagates unchanged (last conjunct). -/
theorem ts_C4 :
    (∀ (r : Nat), runOnce (.ok r) (.ok ()) = (.ok r, .committed)) ∧
    (∀ (r : Nat) (err : Error), runOnce (.ok r) (.error err) = (.error err, .committed)) ∧
    (∀ (err : Error) (commitRes : Except Error Unit),
      runOnce (R := Nat) (.error err) commitRes = (.error err, .aborted)) ∧
    (∀ (attempts : Nat → Except Error Nat) (fuel : Nat) (r : Except Error Nat),
      runLoop attempts fuel 0 = some r →
      ∃ k, attempts k = r ∧ r ≠ .error Error.TxAborted ∧
        ∀ j, j < k → attempts j = .error Error.TxAborted) := by
  refine ⟨fun r => rfl, fun r err => rfl, fun err commitRes => rfl, ?_⟩
  intro attempts fuel r h
  obtain ⟨k, _, hk, hnr, hprev⟩ := runLoop_characterization attempts fuel 0 r h
  exact ⟨k, hk, hnr, fun j hj => hprev j (Nat.zero_le j) hj⟩

/-- Claim C4 witness: the closure results instantiated concretely, and a
run whose first attempt conflicts (TxAborted) and whose second attempt
returns Ok 7: run returns Ok 7, the first attempt was TxAborted. -/
theorem ts_C4_witness :
    runOnce (.ok 7) (.ok ()) = (.ok 7, .committed) ∧
    runOnce (.ok 7) (.error Error.TxAborted) = (.error Error.TxAborted, .committed) ∧
    runOnce (R := Nat) (.error Error.InvalidMemory) (.ok ()) =
      (.error Error.InvalidMemory, .aborted) ∧
    (∃ k, (fun i => if i = 0 then (.error Error.TxAborted : Except Error Nat) else .ok 7) k =
        .ok 7 ∧
      (.ok 7 : Except Error Nat) ≠ .error Error.TxAborted ∧
      ∀ j, j < k →
        (fun i => if i = 0 then (.error Error.TxAborted : Except Error Nat) else .ok 7) j =
          .error Error.TxAborted) := by
  refine ⟨ts_C4.1 7, ts_C4.2.1 7 Error.TxAborted, ts_C4.2.2.1 Error.InvalidMemory (.ok ()), ?_⟩
  exact ts_C4.2.2.2 (fun i => if i = 0 then .error Error.TxAborted else .ok 7) 3 (.ok 7) (by rfl)

/-! ### Object and log allocators (src/vos.rs lines 236-418)

Rust layout sizes relevant to allocation: PageHeader (src/las.rs) is a
fieldless struct, so size_of::<PageHeader>() = 0 and a page body spans
the whole page; ObjectHeader is ObjectSize (two u32 = 8 bytes) plus a
Version word (8) plus the parent and other pointers (8 + 8), so
size_of::<ObjectHeader>() = 32; size_of::<Version>() = 8. -/

def sizeOfPageHeader : Nat := 0

def sizeOfObjectHeader : Nat := 32

def sizeOfVersion : Nat := 8

/-- ObjectSize (src/vos.rs lines 272-294): pointer-prefix and data byte
counts, stored as u32. -/
structure ObjectSize where
  pointers : Nat
  data : Nat
  deriving DecidableEq, Repr

/-- ObjectSize::total: the u32 sum cast to usize. -/
def ObjectSize.total (s : ObjectSize) : Nat := (s.pointers + s.data) % 2 ^ 32

/-- LogicalMutRef::try_consume_bytes (src/las.rs lines 150-169) reduced
to lengths: consume min(len, size) bytes, failing when that is below
min; returns the remaining length of the active page. -/
def tryConsumeBytes (sliceLen size min : Nat) : Option Nat :=
  let len := Nat.min sliceLen size
  if len < min then none else some (sliceLen - len)

/-- GenericAllocator::alloc (src/vos.rs lines 249-269) reduced to
lengths.  The allocator keeps at most one active page (its remaining
body length); on a missing or exhausted active page it requests a fresh
page from the page-alloc closure (modelled as always succeeding with a
full page body of pagesize - size_of::<PageHeader>() bytes) and, if even
the fresh page cannot satisfy the request, fails with
AllocationTooLarge.  Returns the remaining length of the active page. -/
def genAlloc (pagesize : Nat) (active : Option Nat) (size : Nat) : Except Error Nat :=
  match active with
  | some len =>
    match tryConsumeBytes len size size with
    | some rem => .ok rem
    | none =>
      match tryConsumeBytes (pagesize - sizeOfPageHeader) size size with
      | some rem => .ok rem
      | none => .error Error.AllocationTooLarge
  | none =>
    match tryConsumeBytes (pagesize - sizeOfPageHeader) size size with
    | some rem => .ok rem
    | none => .error Error.AllocationTooLarge

/-- TransactionalObjectAllocator::alloc (src/vos.rs lines 357-372)
reduced to lengths: reserves size.total() + size_of::<ObjectHeader>()
bytes. -/
def objectAlloc (pagesize : Nat) (active : Option Nat) (size : ObjectSize) : Except Error Nat :=
  genAlloc pagesize active (size.total + sizeOfObjectHeader)

/-- TransactionalLogAllocator::new_indirect_version (src/vos.rs lines
408-417) reduced to lengths: reserves size_of::<Version>() bytes from
the log allocator's generic allocator. -/
def newIndirectVersionAlloc (pagesize : Nat) (active : Option Nat) : Except Error Nat :=
  genAlloc pagesize active sizeOfVersion

/-- Claim C6 counterexample: a log-allocator request that exceeds the
capacity of a fresh page (pagesize 4 cannot hold the 8-byte Version
record) fails with AllocationTooLarge, not with LogEntryTooLarge as the
claim states: the log allocator shares GenericAllocator::alloc, whose
only failure is AllocationTooLarge, and Error::LogEntryTooLarge is never
constructed anywhere in the source. -/
theorem ts_C6_cex :
    newIndirectVersionAlloc 4 none = .error Error.AllocationTooLarge ∧
    Error.AllocationTooLarge ≠ Error.LogEntryTooLarge := by
  exact ⟨rfl, by decide⟩

theorem tryConsumeBytes_lt (L s : Nat) (h : L < s) : tryConsumeBytes L s s = none := by
  simp only [tryConsumeBytes, Nat.min_def]
  split_ifs <;> first | rfl | (exfalso; omega)

theorem tryConsumeBytes_le (L s : Nat) (h : s ≤ L) : tryConsumeBytes L s s = some (L - s) := by
  simp only [tryConsumeBytes, Nat.min_def]
  split_ifs <;> first | rfl | (exfalso; omega) | (congr 1; omega)

/-- Claim C6 (amended): an object of total size exactly
pagesize - size_of::<ObjectHeader>() - size_of::<PageHeader>() succeeds
(first conjunct) and any object allocation exceeding the capacity of a
fresh page fails with AllocationTooLarge (second conjunct, for any
active-page state whose remaining length is at most the fresh body
size); a log-allocator request exceeding the fresh-page capacity also
fails with AllocationTooLarge — not LogEntryTooLarge (third conjunct). -/
theorem ts_C6 (pagesize : Nat) (size oversize : ObjectSize) (active : Option Nat)
    (hact : ∀ len, active = some len → len ≤ pagesize - sizeOfPageHeader) :
    (sizeOfObjectHeader ≤ pagesize →
      size.total = pagesize - sizeOfObjectHeader - sizeOfPageHeader →
      objectAlloc pagesize none size = .ok 0) ∧
    (pagesize - sizeOfPageHeader < oversize.total + sizeOfObjectHeader →
      objectAlloc pagesize active oversize = .error Error.AllocationTooLarge) ∧
    (pagesize - sizeOfPageHeader < sizeOfVersion →
      newIndirectVersionAlloc pagesize active = .error Error.AllocationTooLarge) := by
  have hbody : pagesize - sizeOfPageHeader = pagesize := by
    simp [sizeOfPageHeader]
  refine ⟨?_, ?_, ?_⟩
  · intro hps hsz
    have htot : size.total + sizeOfObjectHeader = pagesize := by
      simp only [sizeOfPageHeader, Nat.sub_zero] at hsz
      omega
    simp only [objectAlloc, genAlloc, hbody]
    rw [htot, tryConsumeBytes_le pagesize pagesize (le_refl pagesize)]
    simp
  · intro hover
    rw [hbody] at hover
    cases active with
    | none =>
      simp only [objectAlloc, genAlloc, hbody]
      rw [tryConsumeBytes_lt _ _ hover]
    | some len =>
      have hlen : len ≤ pagesize := by
        have := hact len rfl
        rwa [hbody] at this
      simp only [objectAlloc, genAlloc, hbody]
      rw [tryConsumeBytes_lt len _ (by omega), tryConsumeBytes_lt _ _ hover]
  · intro hsmall
    rw [hbody] at hsmall
    cases active with
    | none =>
      simp only [newIndirectVersionAlloc, genAlloc, hbody]
      rw [tryConsumeBytes_lt _ _ hsmall]
    | some len =>
      have hlen : len ≤ pagesize := by
        have := hact len rfl
        rwa [hbody] at this
      simp only [newIndirectVersionAlloc, genAlloc, hbody]
      rw [tryConsumeBytes_lt len _ (by omega), tryConsumeBytes_lt _ _ hsmall]

/-- Claim C6 witness: at pagesize 4096 an object of total size
4096 - 32 - 0 = 4064 allocates, a total one byte larger fails on a
fresh allocator with AllocationTooLarge, and at pagesize 4 the
log-allocator Version record request fails with AllocationTooLarge. -/
theorem ts_C6_witness :
    objectAlloc 4096 none ⟨0, 4064⟩ = .ok 0 ∧
    objectAlloc 4096 none ⟨0, 4065⟩ = .error Error.AllocationTooLarge ∧
    newIndirectVersionAlloc 4 none = .error Error.AllocationTooLarge := by
  have h1 := ts_C6 4096 ⟨0, 4064⟩ ⟨0, 4065⟩ none (fun len h => by cases h)
  have h2 := ts_C6 4 ⟨0, 0⟩ ⟨0, 0⟩ none (fun len h => by cases h)
  exact ⟨h1.1 (by decide) (by decide), h1.2.1 (by decide), h2.2.2 (by decide)⟩

/-! ### LogicalAddressSpace::new (src/las.rs lines 248-364)

Each source is summarised by what LAS::new reads from it: whether its
metapage CRC validates, whether the meta root field is non-zero, the
logical slice (offset, len) the meta records, whether the source is
byte-addressable and persistent, and allocator.length() (the page-
aligned source length used when placing fresh sources).  The ordered
BTreeMap of sources is modelled as an association list kept sorted by
key.  offset_of!(Meta, root) is 20 (PageHeader is zero-sized, MetaData
is one LogicalSlice of 16 bytes, crc is a u32). -/

structure SrcConf where
  metaValid : Bool
  rootNonZero : Bool
  sliceOff : Nat
  sliceLen : Nat
  byteAddr : Bool
  persistent : Bool
  srcLen : Nat
  deriving DecidableEq, Repr

def metaRootOffset : Nat := 20

def ROOT_SIZE : Nat := 64

/-- BTreeMap::insert on a sorted association list. -/
def insertSorted (m : List (Nat × SrcConf)) (k : Nat) (v : SrcConf) : List (Nat × SrcConf) :=
  match m with
  | [] => [(k, v)]
  | (k0, v0) :: rest =>
    if k < k0 then (k, v) :: (k0, v0) :: rest
    else if k = k0 then (k, v) :: rest
    else (k0, v0) :: insertSorted rest k v

/-- BTreeMap::range(start..endExcl).count(): the number of keys in the
half-open interval. -/
def rangeCount (m : List (Nat × SrcConf)) (lo hi : Nat) : Nat :=
  (m.filter (fun e => decide (lo ≤ e.1 ∧ e.1 < hi))).length

/-- The first loop of LogicalAddressSpace::new: for each source with a
valid metapage, record its root claim (a second claimant fails with
RootExists), check that no already-placed source has its base inside
[start, start + len - 1) — the half-open range the source queries, which
misses a source based earlier that extends over start — and insert it at
its recorded offset; sources with invalid metapages are deferred
(failing with OpenOnUninitialized when create is not set).  Returns the
placed map, the root location (address of the meta root field and its
byte-addressability), and the deferred sources in order. -/
def placeExisting (create : Bool) :
    List SrcConf → List (Nat × SrcConf) → Option (Nat × Bool) → List SrcConf →
    Except XErr (List (Nat × SrcConf) × Option (Nat × Bool) × List SrcConf)
  | [], placed, root, unallocated => .ok (placed, root, unallocated)
  | c :: rest, placed, root, unallocated =>
    if c.metaValid then
      if c.rootNonZero && root.isSome then .error (.e Error.RootExists)
      else
        let root2 := if c.rootNonZero then some (c.sliceOff + metaRootOffset, c.byteAddr)
                     else root
        if rangeCount placed c.sliceOff (c.sliceOff + c.sliceLen - 1) ≠ 0 then
          .error (.e Error.InvalidLogicalAddress)
        else placeExisting create rest (insertSorted placed c.sliceOff c) root2 unallocated
    else
      if !create then .error (.e Error.OpenOnUninitialized)
      else placeExisting create rest placed root (unallocated ++ [c])

/-- The second loop of LogicalAddressSpace::new: each deferred source is
assigned a fresh logical range starting just past the last placed source
(its base plus its allocator length), its meta is written with slice
(offset, length), and it is inserted. -/
def placeFresh : List SrcConf → List (Nat × SrcConf) → List (Nat × SrcConf)
  | [], placed => placed
  | c :: rest, placed =>
    let off := match placed.getLast? with
      | some (b, v) => b + v.srcLen
      | none => 0
    placeFresh rest
      (insertSorted placed off { c with sliceOff := off, sliceLen := c.srcLen, metaValid := true })

/-- LogicalAddressSpace::new through source placement and root
selection: after both loops, if no source claimed the root the code
asserts create (modelled as a panic when create is false) and picks the
first persistent source, else the first byte-addressable one, placing
the root inside that source's metapage (base + pagesize +
offset_of!(Meta, root)); with no candidate it fails with
NoAvailableMemory.  The block-root fetch mirror that follows in the
source cannot produce RootExists or InvalidLogicalAddress and is not
modelled. -/
def lasOpenPlace (pagesize : Nat) (create : Bool) (srcs : List SrcConf) :
    Except XErr (List (Nat × SrcConf) × (Nat × Bool)) := do
  let (placed0, root, unallocated) ← placeExisting create srcs [] none []
  let placed := placeFresh unallocated placed0
  match root with
  | some r => .ok (placed, r)
  | none =>
    if !create then .error .panic
    else
      match (placed.find? (fun e => e.2.persistent)).orElse
          (fun _ => placed.find? (fun e => e.2.byteAddr)) with
      | none => .error (.e Error.NoAvailableMemory)
      | some (base, c) => .ok (placed, (base + pagesize + metaRootOffset, c.byteAddr))

/-- Two valid metapages whose recorded slices overlap: source A covers
logical [0, 200), source B covers [100, 200). -/
def c7cfg : List SrcConf :=
  [⟨true, false, 0, 200, true, false, 200⟩, ⟨true, false, 100, 100, true, false, 100⟩]

/-- Two valid metapages that both carry a non-zero root. -/
def c7rootcfg : List SrcConf :=
  [⟨true, true, 0, 200, true, false, 200⟩, ⟨true, true, 200, 100, true, false, 100⟩]

/-- Claim C7: the code evaluated at the failing input.  Opening over the
two overlapping sources of c7cfg succeeds — the placed map records the
overlapping ranges (0, 200) and (100, 100), and the point 100 lies in
both — because the range check only scans [start, start + len - 1) for
existing bases and never notices an earlier mapping that extends across
start (the source comment marks exactly this hole).  The duplicate-root
half of the claim does hold: two root claimants fail with RootExists. -/
theorem ts_C7 :
    (∃ placed root, lasOpenPlace 4096 true c7cfg = .ok (placed, root) ∧
      placed.map (fun e => (e.2.sliceOff, e.2.sliceLen)) = [(0, 200), (100, 100)]) ∧
    (0 ≤ 100 ∧ 100 < 0 + 200 ∧ 100 ≤ 100 ∧ 100 < 100 + 100) ∧
    lasOpenPlace 4096 true c7rootcfg = .error (.e Error.RootExists) := by
  refine ⟨⟨_, _, rfl, by decide⟩, by decide, by rfl⟩

/-! ### LogicalAddressSpace fetch and flush (src/las.rs lines 396-573)

Runtime LAS state: the sorted source map (base offset, source flags and
free list of page offsets within the source), one flat byte memory over
global logical addresses (positional read/write on a source at offset o
touches mem at base + o), and the backing map from page-aligned byte
addresses to their persistent backing slices.  Page contents are copied
whole-page by both fetch and flush, and PageHeader is zero-sized, so a
page body is the entire page. -/

structure LSlice where
  off : Nat
  len : Nat
  deriving DecidableEq, Repr

/-- StoredLogicalSlice: a block- or byte-kinded logical slice. -/
inductive SSlice where
  | block (s : LSlice)
  | byte (s : LSlice)
  deriving DecidableEq, Repr

def SSlice.raw : SSlice → LSlice
  | .block s => s
  | .byte s => s

structure LasSrc where
  byteAddr : Bool
  persistent : Bool
  freelist : List Nat
  deriving DecidableEq, Repr

structure LasState where
  pagesize : Nat
  sources : List (Nat × LasSrc)
  mem : Nat → Nat
  backing : List (Nat × SSlice)

/-- math::align_down for a power-of-two alignment. -/
def alignDown (v p : Nat) : Nat := v - v % p

/-- math::align_up for a power-of-two alignment. -/
def alignUp (v p : Nat) : Nat := alignDown (v + p - 1) p

/-- LogicalAddressSpace::with_source: the source whose base is the
greatest key at most the address. -/
def withSource (st : LasState) (off : Nat) : Option (Nat × LasSrc) :=
  (st.sources.filter (fun e => e.1 ≤ off)).getLast?

def replaceSource (ss : List (Nat × LasSrc)) (base : Nat) (v : LasSrc) :
    List (Nat × LasSrc) :=
  ss.map (fun e => if e.1 = base then (base, v) else e)

/-- Copy len bytes from the src view over the memory starting at dst. -/
def writeRange (mem : Nat → Nat) (dst : Nat) (src : Nat → Nat) (len : Nat) : Nat → Nat :=
  fun i => if dst ≤ i ∧ i < dst + len then src (i - dst) else mem i

def lookupBacking (m : List (Nat × SSlice)) (k : Nat) : Option SSlice :=
  (m.find? (fun e => e.1 == k)).map (fun e => e.2)

/-- LogicalAddressSpace::alloc: pop a page from the free list of the
first byte-addressable source, initialize the (zero-sized) PageHeader,
and return the new state together with the page body address. -/
def lasAlloc (st : LasState) : Except XErr (LasState × Nat) :=
  match st.sources.find? (fun e => e.2.byteAddr) with
  | none => .error (.e Error.NoAvailableMemory)
  | some (base, src) =>
    match src.freelist with
    | [] => .error (.e Error.NoAvailableMemory)
    | p :: rest =>
      .ok ({ st with sources := replaceSource st.sources base { src with freelist := rest } },
        base + p + sizeOfPageHeader)

/-- LogicalAddressSpace::fetch: read the whole page owning the slice
from its source, copy it into a freshly allocated byte-addressable
page, and return a byte slice at the same intra-page offset. -/
def lasFetch (st : LasState) (s : SSlice) : Except XErr (LasState × LSlice) :=
  let raw := s.raw
  match withSource st raw.off with
  | none => .error (.e Error.InvalidLogicalAddress)
  | some (base, _) =>
    if alignUp raw.len st.pagesize ≠ st.pagesize then .error .panic
    else
      let pageOff := alignDown (raw.off - base) st.pagesize
      let buf : Nat → Nat := fun j => st.mem (base + pageOff + j)
      let offset := raw.off - base - pageOff
      match lasAlloc st with
      | .error err => .error err
      | .ok (st2, body) =>
        .ok ({ st2 with mem := writeRange st2.mem body buf st.pagesize },
          ⟨body + offset, raw.len⟩)

/-- LogicalAddressSpace::allocate_backing: if the key has no backing
entry yet, pop a page from the first persistent source and record the
page body slice (kinded by that source) under the key. -/
def allocate_backing (st : LasState) (key : Nat) : Except XErr LasState :=
  match lookupBacking st.backing key with
  | some _ => .ok st
  | none =>
    match st.sources.find? (fun e => e.2.persistent) with
    | none => .error (.e Error.NoAvailableMemory)
    | some (base, src) =>
      match src.freelist with
      | [] => .error (.e Error.NoAvailableMemory)
      | p :: rest =>
        let slice : LSlice := ⟨base + p + sizeOfPageHeader, st.pagesize - sizeOfPageHeader⟩
        .ok { st with
          sources := replaceSource st.sources base { src with freelist := rest },
          backing := st.backing ++ [(key, if src.byteAddr then .byte slice else .block slice)] }

/-- LogicalAddressSpace::flush, fueled (the source recurses once after
allocate_backing): align the byte slice to its page (the owning source
must be byte-addressable — asserted); a persistent byte source is
flushed in place and the slice returned unchanged; otherwise the whole
page is written to the backing page (allocating one first if the page
has no backing entry) and the returned slice points into the backing
page at the same intra-page offset, kinded like the backing slice. -/
def lasFlushGo (st : LasState) (b : LSlice) : Nat → Except XErr (LasState × SSlice)
  | 0 => .error .outOfFuel
  | fuel + 1 =>
    let ps := st.pagesize
    let alignedOff := alignDown b.off ps
    if alignUp b.len ps ≠ ps then .error .panic
    else
      match withSource st alignedOff with
      | none => .error (.e Error.InvalidLogicalAddress)
      | some (base, src) =>
        if !src.byteAddr then .error .panic
        else
          let pageOff := alignDown (alignedOff - base) ps
          let data : Nat → Nat := fun j => st.mem (base + pageOff + j)
          let offset := b.off - base - pageOff
          if src.persistent then .ok (st, .byte b)
          else
            match lookupBacking st.backing alignedOff with
            | some bk =>
              match withSource st bk.raw.off with
              | none => .error (.e Error.InvalidLogicalAddress)
              | some (dbase, dsrc) =>
                if !dsrc.persistent then .error .panic
                else
                  let dpageOff := alignDown (bk.raw.off - dbase) ps
                  let res : LSlice := ⟨bk.raw.off + offset, b.len⟩
                  .ok ({ st with mem := writeRange st.mem (dbase + dpageOff) data ps },
                    match bk with
                    | .block _ => .block res
                    | .byte _ => .byte res)
            | none =>
              match allocate_backing st alignedOff with
              | .error err => .error err
              | .ok st2 => lasFlushGo st2 b fuel

/-- A two-source LAS at pagesize 16: a persistent block source covering
logical [0, 64) with free page 48 (pages 0 and 16 are the header and
metapage, page 32 holds live data), and a volatile byte-addressable
source covering [64, 128) with free pages 32 and 48. -/
def c5state (mem : Nat → Nat) : LasState where
  pagesize := 16
  sources := [(0, ⟨false, true, [48]⟩), (64, ⟨true, false, [32, 48]⟩)]
  mem := mem
  backing := []

/-- The stored block slice under test: 8 bytes at logical 36, inside
page 32 of the persistent block source. -/
def c5s : SSlice := .block ⟨36, 8⟩

/-- fetch followed by flush of the fetched byte slice, returning the
final state, the fetched slice, and the flushed stored slice. -/
def c5pipe (mem : Nat → Nat) : Except XErr (LasState × LSlice × SSlice) :=
  match lasFetch (c5state mem) c5s with
  | .error err => .error err
  | .ok (st1, b) =>
    match lasFlushGo st1 b 2 with
    | .error err => .error err
    | .ok (st2, out) => .ok (st2, b, out)

/-- Claim C5 counterexample: fetching the block slice (36, 8) lands the
copy at byte address 100 (page 96 of the volatile source), and flushing
that fetched slice does not return the original block slice: fetch
records no backing entry, so flush allocates the fresh backing page 48
on the persistent source and returns the block slice (52, 8) ≠ (36, 8).
(read on the returned block slice is not even possible: las.read asserts
the owning source is byte-addressable.) -/
theorem ts_C5_cex :
    (∃ st2, c5pipe (fun i => i) = .ok (st2, ⟨100, 8⟩, .block ⟨52, 8⟩)) ∧
    c5s = .block ⟨36, 8⟩ ∧ SSlice.block ⟨52, 8⟩ ≠ .block ⟨36, 8⟩ := by
  refine ⟨⟨_, rfl⟩, rfl, by decide⟩

/-- The final memory after the fetch-then-flush pipeline on c5state:
fetch copies page 32 of the block source to page 96 of the byte source,
and flush copies page 96 to the freshly allocated backing page 48. -/
def c5finalMem (mem : Nat → Nat) : Nat → Nat :=
  writeRange (writeRange mem 96 (fun j => mem (32 + j)) 16) 48
    (fun j => writeRange mem 96 (fun j2 => mem (32 + j2)) 16 (96 + j)) 16

set_option maxHeartbeats 4000000 in
set_option maxRecDepth 100000 in
theorem c5pipe_eq (mem : Nat → Nat) :
    c5pipe mem = .ok
      ({ pagesize := 16,
         sources := [(0, ⟨false, true, []⟩), (64, ⟨true, false, [48]⟩)],
         mem := c5finalMem mem,
         backing := [(96, .block ⟨48, 16⟩)] },
       ⟨100, 8⟩, .block ⟨52, 8⟩) := by
  with_unfolding_all rfl

set_option maxRecDepth 100000 in
/-- Claim C5 (amended): for a block-kinded stored slice on an attached
source, fetch(s) returns the byte slice (100, 8) and flush(fetched)
does not return the original block slice s: because fetch records no
backing entry, flush allocates a fresh page on the best persistent
source and returns a block slice into that page at the same intra-page
offset.  The bytes are preserved: for each of the 8 bytes, the final
memory at the flush destination equals the fetched copy and both equal
the original bytes of s. -/
theorem ts_C5 (mem : Nat → Nat) (i : Nat) (hi : i < 8) :
    ∃ st2, c5pipe mem = .ok (st2, ⟨100, 8⟩, .block ⟨52, 8⟩) ∧
      SSlice.block ⟨52, 8⟩ ≠ c5s ∧
      st2.mem (52 + i) = mem (36 + i) ∧
      st2.mem (100 + i) = mem (36 + i) := by
  refine ⟨_, c5pipe_eq mem, by decide, ?_, ?_⟩
  · show c5finalMem mem (52 + i) = mem (36 + i)
    simp only [c5finalMem, writeRange]
    split_ifs <;> (congr 1; omega)
  · show c5finalMem mem (100 + i) = mem (36 + i)
    simp only [c5finalMem, writeRange]
    split_ifs <;> (congr 1; omega)

/-- Claim C5 witness: the amended statement at identity page contents
and byte index 0. -/
theorem ts_C5_witness :
    ∃ st2, c5pipe (fun a => a) = .ok (st2, ⟨100, 8⟩, .block ⟨52, 8⟩) ∧
      SSlice.block ⟨52, 8⟩ ≠ c5s ∧
      st2.mem 52 = 36 ∧
      st2.mem 100 = 36 := by
  have h := ts_C5 (fun a => a) 0 (by norm_num)
  simpa using h
